import Mathlib

/-!
Shallow embedding of the wire-desktop repository slice consisting of the
renderer context-menu dispatcher and the macOS build/sign tooling
(`src/electron/src/menu/context.ts`).  Pure or effect-describing Lean
functions mirror the TypeScript; DOM access, the file system and shell
execution are made explicit as data.
-/

/-- JavaScript truthiness of a `string | null | undefined` value: `null`,
`undefined` and the empty string are falsy, every other string is truthy. -/
def jsTruthy : Option String → Bool
  | none => false
  | some s => s != ""

/-- The fields of a DOM element that `handleContextMenu` reads: `nodeName`,
the class list, `src` (image source), `href` (anchor target), `innerText`,
and `timeElement`, the result of looking up the first `time` descendant via
`getElementsByTagName` together with its `data-timestamp` attribute
(`none` when no `time` descendant exists; `some none` when the `time`
element has no `data-timestamp` attribute). -/
structure ElementData where
  nodeName : String
  classList : List String
  src : String
  href : String
  innerText : String
  timeElement : Option (Option String)
deriving DecidableEq

/-- A DOM node together with its `parentNode` chain; for a contextmenu
event target the chain ends at the document node. -/
inductive DomNode where
  | document : DomNode
  | elem : ElementData → DomNode → DomNode
deriving DecidableEq

/-- Model of `element.closest(".message-body")`: the nearest node (the element itself
or an ancestor) whose class list contains `message-body`, or `none`
(JavaScript `null`) when there is no such node. -/
def closestMessageBody : DomNode → Option ElementData
  | .document => none
  | .elem d p => if "message-body" ∈ d.classList then some d else closestMessageBody p

/-- The ancestor walk in the final branch of `handleContextMenu`: starting
from `element.parentNode`, walk up while the node is not the document and
does not carry the `text` class; the result is the first strict ancestor
carrying the `text` class, or `none` when the walk reaches the document. -/
def findTextAncestor : DomNode → Option ElementData
  | .document => none
  | .elem d p => if "text" ∈ d.classList then some d else findTextAncestor p

/-- A menu entry as built by the module: a separator, a labelled item with an
Electron role, a spelling suggestion (whose click handler calls
`replaceMisspelling` with the item label), or a disabled placeholder. -/
inductive MenuItem where
  | separator : MenuItem
  | roleItem : String → String → MenuItem
  | suggestion : String → MenuItem
  | disabledItem : String → MenuItem
deriving DecidableEq

/-- What activating a menu item does. -/
inductive ClickAction where
  | noAction : ClickAction
  | roleAction : String → ClickAction
  | replaceMisspelling : String → ClickAction
deriving DecidableEq

/-- Click semantics of the menu items: a suggestion item replaces the
misspelled word with its own label (`menuItem.label` in the source); a role
item delegates to its Electron role; separators and disabled placeholders
do nothing. -/
def menuItemAction : MenuItem → ClickAction
  | .separator => .noAction
  | .roleItem _ r => .roleAction r
  | .suggestion s => .replaceMisspelling s
  | .disabledItem _ => .noAction

/-- Modelled from the spec: `locale.getText`, the locale text lookup keyed by
string constants, lives outside this repository slice; it is modelled as
returning its key. -/
def getText (key : String) : String := key

/-- The static `textMenuTemplate`: cut, copy, paste, separator, select all. -/
def textMenuTemplate : List MenuItem :=
  [ .roleItem (getText "menuCut") "cut",
    .roleItem (getText "menuCopy") "copy",
    .roleItem (getText "menuPaste") "paste",
    .separator,
    .roleItem (getText "menuSelectAll") "selectAll" ]

/-- The `DictionaryParams` interface: optional suggestion list and optional
misspelled word. -/
structure DictionaryParams where
  suggestions : Option (List String)
  misspelledWord : Option String
deriving DecidableEq

/-- Model of `createTextMenu`: copies the template; when the misspelled word is truthy
it prepends a separator and then either, for a truthy non-empty suggestion
list, prepends (`unshift`) one suggestion item per element of the in-place
reversed list, or otherwise prepends a single disabled placeholder.  The
source stores the built menu in the module-level `textMenu`; the model
returns the item list. -/
def createTextMenu (dictionaryParams : DictionaryParams) : List MenuItem :=
  let template := textMenuTemplate
  if jsTruthy dictionaryParams.misspelledWord then
    let template := MenuItem.separator :: template
    match dictionaryParams.suggestions with
    | some suggestions =>
      if suggestions.length > 0 then
        suggestions.reverse.foldl (fun t s => MenuItem.suggestion s :: t) template
      else
        MenuItem.disabledItem "No suggestions" :: template
    | none => MenuItem.disabledItem "No suggestions" :: template
  else template

/-- Whether the first list is an initial segment of the second. -/
def isPrefixChars : List Char → List Char → Bool
  | [], _ => true
  | _ :: _, [] => false
  | c :: cs, e :: es => c == e && isPrefixChars cs es

/-- Model of `elementHref.replace(/^mailto:/, "")`: removes a leading `mailto:`
prefix (the regular expression is anchored, so at most the one leading
occurrence is removed); when the href does not start with `mailto:` the
string is unchanged. -/
def stripMailto (s : String) : String :=
  if isPrefixChars "mailto:".data s.data then String.mk (s.data.drop 7) else s

/-- The module-level mutable state read by the popup click handlers:
`copyContext` and the `image` / `timestamp` fields attached to the
singleton image menu (both initially `undefined`, modelled as `Option`). -/
structure MenuState where
  copyContext : String
  imageMenuImage : Option String
  imageMenuTimestamp : Option String
deriving DecidableEq

/-- Which menu a dispatch pops up: the freshly built text menu (with its
items), the singleton image menu, or the singleton default copy menu. -/
inductive Popup where
  | text : List MenuItem → Popup
  | image : Popup
  | defaultCopy : Popup
deriving DecidableEq

/-- The `ContextMenuParams` fields used: the misspelled word and the
dictionary suggestions. -/
structure ContextMenuParams where
  misspelledWord : Option String
  dictionarySuggestions : Option (List String)
deriving DecidableEq

/-- Everything observable about one run of `handleContextMenu`: the updated
module state, whether `event.preventDefault()` was called, which popup (if
any) was shown, and whether the run threw (the dereference of a `null`
`closest` result in the image branch). -/
structure HandleOutcome where
  state : MenuState
  preventedDefault : Bool
  popup : Option Popup
  threw : Bool
deriving DecidableEq

/-- Model of `handleContextMenu(event, params)` for a target element with data `d`
and parent chain `parent`; `selection` models `window.getSelection()`
(`none` for `null`, otherwise the selection string).  Mirrors the source
branch for branch: (1) TEXTAREA/INPUT builds and pops the text menu;
(2) an `image-element` / `detail-view-image` class looks up the
`.message-body` ancestor (throwing on `null`), copies a `data-timestamp`
when a `time` element exists, stores the image source and pops the image
menu; (3) an anchor stores the `mailto:`-stripped href; (4) a `text`-class
element stores the selection or trimmed inner text; (5) otherwise the same
for the nearest `text`-class strict ancestor, or, with no such ancestor,
does nothing. -/
def handleContextMenu (d : ElementData) (parent : DomNode)
    (params : ContextMenuParams) (selection : Option String)
    (st : MenuState) : HandleOutcome :=
  let st := { st with copyContext := "" }
  if d.nodeName = "TEXTAREA" ∨ d.nodeName = "INPUT" then
    let items := createTextMenu
      { suggestions := params.dictionarySuggestions, misspelledWord := params.misspelledWord }
    { state := st, preventedDefault := true, popup := some (.text items), threw := false }
  else if "image-element" ∈ d.classList ∨ "detail-view-image" ∈ d.classList then
    match closestMessageBody (.elem d parent) with
    | none =>
      { state := st, preventedDefault := true, popup := none, threw := true }
    | some parentElement =>
      let st :=
        match parentElement.timeElement with
        | some imageTimestamp => { st with imageMenuTimestamp := imageTimestamp }
        | none => st
      let st := { st with imageMenuImage := some d.src }
      { state := st, preventedDefault := true, popup := some .image, threw := false }
  else if d.nodeName = "A" then
    let st := { st with copyContext := stripMailto d.href }
    { state := st, preventedDefault := true, popup := some .defaultCopy, threw := false }
  else if "text" ∈ d.classList then
    let selText := selection.getD ""
    let st := { st with copyContext := if selText != "" then selText else d.innerText.trim }
    { state := st, preventedDefault := true, popup := some .defaultCopy, threw := false }
  else
    match findTextAncestor parent with
    | some parentNode =>
      let selText := selection.getD ""
      let st := { st with copyContext := if selText != "" then selText else parentNode.innerText.trim }
      { state := st, preventedDefault := true, popup := some .defaultCopy, threw := false }
    | none =>
      { state := st, preventedDefault := false, popup := none, threw := false }

mutual
/-- JSON values as read and written by `fs-extra` in the build script;
numbers are modelled as integers (the manifests handled here contain no
fractional numbers). -/
inductive JValue where
  | null : JValue
  | bool : Bool → JValue
  | num : Int → JValue
  | str : String → JValue
  | arr : JArr → JValue
  | obj : JObj → JValue
inductive JArr where
  | nil : JArr
  | cons : JValue → JArr → JArr
inductive JObj where
  | nil : JObj
  | cons : String → JValue → JObj → JObj
end

/-- The opening curly brace character. -/
def lbrace : Char := Char.ofNat 123

/-- The closing curly brace character. -/
def rbrace : Char := Char.ofNat 125

/-- A run of `n` spaces, for the 2-space indentation of `JSON.stringify`. -/
def spacesN : Nat → String
  | 0 => ""
  | n + 1 => " " ++ spacesN n

/-- The escape sequence `JSON.stringify` produces for one character inside a
string literal (the characters occurring in the modelled manifests). -/
def jsonEscapeChar (c : Char) : String :=
  if c == '"' then "\\\""
  else if c == '\\' then "\\\\"
  else if c == '\n' then "\\n"
  else if c == '\t' then "\\t"
  else if c == '\r' then "\\r"
  else String.singleton c

/-- A JSON string literal: quoted and escaped. -/
def jsonQuote (s : String) : String :=
  "\"" ++ String.join (s.data.map jsonEscapeChar) ++ "\""

mutual
/-- Rendering of `JSON.stringify(v, null, 2)` at the current indentation depth. -/
def stringifyVal (ind : Nat) : JValue → String
  | .null => "null"
  | .bool true => "true"
  | .bool false => "false"
  | .num n => toString n
  | .str s => jsonQuote s
  | .arr .nil => "[]"
  | .arr a => "[\n" ++ stringifyArr (ind + 2) a ++ "\n" ++ spacesN ind ++ "]"
  | .obj .nil => "\x7b\x7d"
  | .obj o => "\x7b\n" ++ stringifyObj (ind + 2) o ++ "\n" ++ spacesN ind ++ "\x7d"
/-- Array items, one per line, comma-separated, at the given indentation. -/
def stringifyArr (ind : Nat) : JArr → String
  | .nil => ""
  | .cons v .nil => spacesN ind ++ stringifyVal ind v
  | .cons v rest => spacesN ind ++ stringifyVal ind v ++ ",\n" ++ stringifyArr ind rest
/-- Object entries, one per line, comma-separated, at the given indentation. -/
def stringifyObj (ind : Nat) : JObj → String
  | .nil => ""
  | .cons k v .nil => spacesN ind ++ jsonQuote k ++ ": " ++ stringifyVal ind v
  | .cons k v rest =>
    spacesN ind ++ jsonQuote k ++ ": " ++ stringifyVal ind v ++ ",\n" ++ stringifyObj ind rest
end

/-- File content produced by `fs.writeJson(path, v, ...spaces: 2...)`:
`JSON.stringify(v, null, 2)` followed by the default end-of-line. -/
def writeJsonString (v : JValue) : String := stringifyVal 0 v ++ "\n"

/-- JSON insignificant whitespace. -/
def isWsChar (c : Char) : Bool :=
  c == ' ' || c == '\n' || c == '\t' || c == '\r'

/-- Drop leading JSON whitespace. -/
def skipWs : List Char → List Char
  | [] => []
  | c :: cs => if isWsChar c then skipWs cs else c :: cs

/-- Consume an expected literal token character by character. -/
def stripToken : List Char → List Char → Option (List Char)
  | [], cs => some cs
  | _ :: _, [] => none
  | t :: ts, c :: cs => if c == t then stripToken ts cs else none

/-- Parse the remainder of a JSON string literal (after the opening quote),
returning its characters and the input after the closing quote. -/
def parseStringChars : Nat → List Char → Option (List Char × List Char)
  | 0, _ => none
  | _, [] => none
  | fuel + 1, c :: cs =>
    if c == '"' then some ([], cs)
    else if c == '\\' then
      match cs with
      | [] => none
      | e :: cs2 =>
        let dec : Option Char :=
          if e == '"' then some '"'
          else if e == '\\' then some '\\'
          else if e == '/' then some '/'
          else if e == 'n' then some '\n'
          else if e == 't' then some '\t'
          else if e == 'r' then some '\r'
          else none
        match dec with
        | none => none
        | some d => (parseStringChars fuel cs2).map (fun r => (d :: r.1, r.2))
    else (parseStringChars fuel cs).map (fun r => (c :: r.1, r.2))

/-- Split a leading run of decimal digits from the input. -/
def takeDigits : List Char → List Char × List Char
  | [] => ([], [])
  | c :: cs =>
    if c.isDigit then
      let r := takeDigits cs
      (c :: r.1, r.2)
    else ([], c :: cs)

/-- The natural number denoted by a digit run. -/
def digitsToNat (ds : List Char) : Nat :=
  ds.foldl (fun n c => n * 10 + (c.toNat - 48)) 0

mutual
/-- Recursive-descent `JSON.parse` (integer numbers only), fuelled. -/
def parseVal : Nat → List Char → Option (JValue × List Char)
  | 0, _ => none
  | fuel + 1, cs =>
    match skipWs cs with
    | [] => none
    | c :: rest =>
      if c == 'n' then (stripToken [ 'u', 'l', 'l' ] rest).map (fun r => (JValue.null, r))
      else if c == 't' then (stripToken [ 'r', 'u', 'e' ] rest).map (fun r => (JValue.bool true, r))
      else if c == 'f' then (stripToken [ 'a', 'l', 's', 'e' ] rest).map (fun r => (JValue.bool false, r))
      else if c == '"' then
        (parseStringChars (rest.length + 1) rest).map (fun r => (JValue.str (String.mk r.1), r.2))
      else if c == '[' then
        match skipWs rest with
        | ']' :: r2 => some (.arr .nil, r2)
        | r2 => (parseArrItems fuel r2).map (fun p => (JValue.arr p.1, p.2))
      else if c == lbrace then
        match skipWs rest with
        | [] => none
        | c2 :: r2 =>
          if c2 == rbrace then some (.obj .nil, r2)
          else (parseObjItems fuel (c2 :: r2)).map (fun p => (JValue.obj p.1, p.2))
      else if c == '-' || c.isDigit then
        let signedInput := if c == '-' then rest else c :: rest
        match takeDigits signedInput with
        | ([], _) => none
        | (ds, after) =>
          let value : Int := if c == '-' then -(digitsToNat ds : Int) else (digitsToNat ds : Int)
          match after with
          | a :: _ => if a == '.' || a == 'e' || a == 'E' then none else some (.num value, after)
          | [] => some (.num value, [])
      else none
/-- One or more comma-separated array items, then the closing bracket. -/
def parseArrItems : Nat → List Char → Option (JArr × List Char)
  | 0, _ => none
  | fuel + 1, cs =>
    match parseVal fuel cs with
    | none => none
    | some (v, rest) =>
      match skipWs rest with
      | ',' :: r2 => (parseArrItems fuel r2).map (fun p => (JArr.cons v p.1, p.2))
      | c :: r2 => if c == ']' then some (.cons v .nil, r2) else none
      | [] => none
/-- One or more comma-separated object entries, then the closing brace. -/
def parseObjItems : Nat → List Char → Option (JObj × List Char)
  | 0, _ => none
  | fuel + 1, cs =>
    match skipWs cs with
    | [] => none
    | c :: rest =>
      if c == '"' then
        match parseStringChars (rest.length + 1) rest with
        | none => none
        | some (key, afterKey) =>
          match skipWs afterKey with
          | ':' :: afterColon =>
            match parseVal fuel afterColon with
            | none => none
            | some (v, rest2) =>
              match skipWs rest2 with
              | ',' :: r3 => (parseObjItems fuel r3).map (fun p => (JObj.cons (String.mk key) v p.1, p.2))
              | c2 :: r3 => if c2 == rbrace then some (.cons (String.mk key) v .nil, r3) else none
              | [] => none
          | _ => none
      else none
end

/-- Model of `JSON.parse` on a whole document (as performed by `fs.readJson`):
`none` models a thrown parse error. -/
def parseJson (s : String) : Option JValue :=
  match parseVal (s.length + 1) s.data with
  | none => none
  | some (v, rest) => if (skipWs rest).isEmpty then some v else none

/-- Set a key in an object entry list: an existing key keeps its position and
gets the new value, a new key is appended (the JavaScript object-spread
update semantics). -/
def jObjSet : JObj → String → JValue → JObj
  | .nil, k, v => .cons k v .nil
  | .cons k2 v2 rest, k, v =>
    if k2 = k then .cons k2 v rest else .cons k2 v2 (jObjSet rest k v)

/-- The object spread update used for the temporary package.json: on an
object it updates the key; the (unreachable for real manifests) non-object
case keeps only the new field, as a primitive spread contributes no
enumerable properties. -/
def jSetField : JValue → String → JValue → JValue
  | .obj kvs, k, v => .obj (jObjSet kvs k v)
  | _, k, v => .obj (.cons k v .nil)

/-- The file system visible to the build script: a map from paths to file
contents. -/
def FS := String → Option String

/-- Writing a file. -/
def fsWrite (fs : FS) (p c : String) : FS :=
  fun q => if q = p then some c else fs q

/-- The `MacOSConfig` struct fields used by the build script (the `Config`
module declaring it is outside this slice; fields are those read or
written here, all certificate and notarization fields nullable). -/
structure MacOSConfig where
  bundleId : String
  category : String
  certNameApplication : Option String
  certNameInstaller : Option String
  notarizeAppleId : Option String
  notarizeApplePassword : Option String
deriving DecidableEq

/-- Modelled from the spec: the `CommonConfig` struct produced by the
out-of-slice `getCommonConfig` — name, version, copyright, build number,
asar flag, build directory, plus the distribution directory and custom
protocol name read by this script. -/
structure CommonConfig where
  name : String
  version : String
  copyright : String
  buildNumber : String
  enableAsar : Bool
  buildDir : String
  distDir : String
  customProtocolName : String
deriving DecidableEq

/-- Modelled from the spec: the JSON serialization of a `CommonConfig`, as
written over the wire JSON descriptor during the build (overwritten again
by the restoring write, so the exact field set does not affect the final
file-system state). -/
def CommonConfig.toJson (c : CommonConfig) : JValue :=
  .obj (.cons "name" (.str c.name)
    (.cons "version" (.str c.version)
      (.cons "copyright" (.str c.copyright)
        (.cons "buildNumber" (.str c.buildNumber)
          (.cons "enableAsar" (.bool c.enableAsar)
            (.cons "buildDir" (.str c.buildDir)
              (.cons "distDir" (.str c.distDir)
                (.cons "customProtocolName" (.str c.customProtocolName) .nil))))))))

/-- The environment variables read by `buildMacOSConfig`; a `none` field is
an unset variable. -/
structure Env where
  macosBundleId : Option String
  macosCertificateNameApplication : Option String
  macosCertificateNameInstaller : Option String
  macosNotarizeAppleId : Option String
  macosNotarizeApplePassword : Option String
deriving DecidableEq

/-- The environment with none of the five relevant variables set. -/
def emptyEnv : Env :=
  { macosBundleId := none
    macosCertificateNameApplication := none
    macosCertificateNameInstaller := none
    macosNotarizeAppleId := none
    macosNotarizeApplePassword := none }

/-- JavaScript `a || b` for an optional string against a string default. -/
def jsOrStr (v : Option String) (dflt : String) : String :=
  match v with
  | some s => if s != "" then s else dflt
  | none => dflt

/-- JavaScript `a || b` for an optional string against an optional default. -/
def jsOrOpt (v dflt : Option String) : Option String :=
  if jsTruthy v then v else dflt

/-- The `osxSign` packager option (`entitlements-inherit` spelled
`entitlementsInherit`). -/
structure OsxSign where
  entitlements : String
  entitlementsInherit : String
  identity : String
deriving DecidableEq

/-- The `osxNotarize` packager option. -/
structure OsxNotarize where
  appleId : String
  appleIdPassword : String
deriving DecidableEq

/-- The electron-packager options built by `buildMacOSConfig`; the `ignore`
regular expression is kept as its source pattern text. -/
structure PackagerConfig where
  appBundleId : String
  appCategoryType : String
  appCopyright : String
  appVersion : String
  asar : Bool
  buildVersion : String
  darwinDarkModeSupport : Bool
  dir : String
  extendInfo : String
  helperBundleId : String
  icon : String
  ignorePattern : String
  name : String
  out : String
  overwrite : Bool
  platform : String
  protocols : List (String × List String)
  prune : Bool
  quiet : Bool
  osxSign : Option OsxSign
  osxNotarize : Option OsxNotarize
deriving DecidableEq

/-- The `macOsDefaultConfig` literal. -/
def macOsDefaultConfig : MacOSConfig :=
  { bundleId := "com.wearezeta.zclient.mac"
    category := "public.app-category.social-networking"
    certNameApplication := none
    certNameInstaller := none
    notarizeAppleId := none
    notarizeApplePassword := none }

/-- The pair returned by `buildMacOSConfig`. -/
structure BuildMacOSConfigResult where
  macOSConfig : MacOSConfig
  packagerConfig : PackagerConfig
deriving DecidableEq

/-- Model of `buildMacOSConfig`: merges the defaults with environment overrides
(JavaScript `||`, so an empty-string variable falls back to the default),
builds the packager options from the merged config and the common config
(obtained by the out-of-slice `getCommonConfig`, here passed in), and, when
not signing manually, adds `osxSign` for a truthy application certificate
and `osxNotarize` when both notarization credentials are truthy. -/
def buildMacOSConfig (env : Env) (commonConfig : CommonConfig)
    (signManually : Bool) : BuildMacOSConfigResult :=
  let macOSConfig : MacOSConfig :=
    { macOsDefaultConfig with
      bundleId := jsOrStr env.macosBundleId macOsDefaultConfig.bundleId
      certNameApplication :=
        jsOrOpt env.macosCertificateNameApplication macOsDefaultConfig.certNameApplication
      certNameInstaller :=
        jsOrOpt env.macosCertificateNameInstaller macOsDefaultConfig.certNameInstaller
      notarizeAppleId := jsOrOpt env.macosNotarizeAppleId macOsDefaultConfig.notarizeAppleId
      notarizeApplePassword :=
        jsOrOpt env.macosNotarizeApplePassword macOsDefaultConfig.notarizeApplePassword }
  let packagerConfig : PackagerConfig :=
    { appBundleId := macOSConfig.bundleId
      appCategoryType := "public.app-category.social-networking"
      appCopyright := commonConfig.copyright
      appVersion := commonConfig.version
      asar := commonConfig.enableAsar
      buildVersion := commonConfig.buildNumber
      darwinDarkModeSupport := true
      dir := "."
      extendInfo := "resources/macos/custom.plist"
      helperBundleId := macOSConfig.bundleId ++ ".helper"
      icon := "resources/macos/logo.icns"
      ignorePattern := "electron/renderer/src"
      name := commonConfig.name
      out := commonConfig.buildDir
      overwrite := true
      platform := "mas"
      protocols := [(commonConfig.name ++ " Core Protocol", [commonConfig.customProtocolName])]
      prune := true
      quiet := false
      osxSign := none
      osxNotarize := none }
  let packagerConfig :=
    if !signManually then
      let pc :=
        if jsTruthy macOSConfig.certNameApplication then
          { packagerConfig with
            osxSign := some
              { entitlements := "resources/macos/entitlements/parent.plist"
                entitlementsInherit := "resources/macos/entitlements/child.plist"
                identity := macOSConfig.certNameApplication.getD "" } }
        else packagerConfig
      if jsTruthy macOSConfig.notarizeAppleId && jsTruthy macOSConfig.notarizeApplePassword then
        { pc with
          osxNotarize := some
            { appleId := macOSConfig.notarizeAppleId.getD ""
              appleIdPassword := macOSConfig.notarizeApplePassword.getD "" } }
      else pc
    else packagerConfig
  { macOSConfig := macOSConfig, packagerConfig := packagerConfig }

/-- Modelled from the spec: `getCommonConfig` (the `commonConfig` module is
outside this slice) snapshots the wire JSON descriptor — `defaultConfig`
is the parsed content of the wire JSON file and `commonConfig` is that
content merged with env-file overrides, the merge abstracted as the
function argument `envMerge`.  A missing or unparseable file makes the
call throw, modelled as `none`. -/
def getCommonConfig (envMerge : JValue → CommonConfig) (fs : FS)
    (wireJsonPath : String) : Option (JValue × CommonConfig) :=
  match fs wireJsonPath with
  | none => none
  | some content =>
    match parseJson content with
    | none => none
    | some defaultConfig => some (defaultConfig, envMerge defaultConfig)

/-- Model of `buildMacOSWrapper` as a file-system transformer: loads the common
config, snapshots package.json via `fs.readJson`, overwrites package.json
(name and version updated by object spread) and the wire JSON descriptor
(with the common config), runs the packager and, for a truthy installer
certificate, the signing step (automatic or manual — both only write under
the build and distribution directories, so only their success or failure,
`packagerThrows` / `signThrows`, is modelled), and in a `finally` block
rewrites both manifests — `writeJson` with 2-space indentation — from the
snapshots.  Returns the final file system and `true` on success, `false`
when an error propagates to the caller. -/
def buildMacOSWrapper (envMerge : JValue → CommonConfig)
    (packagerThrows signThrows : Bool) (macOSConfig : MacOSConfig)
    (packageJsonPath wireJsonPath : String) (fs0 : FS) : FS × Bool :=
  match getCommonConfig envMerge fs0 wireJsonPath with
  | none => (fs0, false)
  | some (defaultConfig, commonConfig) =>
    match fs0 packageJsonPath with
    | none => (fs0, false)
    | some pkgContent =>
      match parseJson pkgContent with
      | none => (fs0, false)
      | some originalPackageJson =>
        let modifiedPackageJson :=
          jSetField (jSetField originalPackageJson "productName" (.str commonConfig.name))
            "version" (.str commonConfig.version)
        let fs1 := fsWrite fs0 packageJsonPath (writeJsonString modifiedPackageJson)
        let fs2 := fsWrite fs1 wireJsonPath (writeJsonString commonConfig.toJson)
        let success :=
          !packagerThrows && (!(jsTruthy macOSConfig.certNameInstaller) || !signThrows)
        let fs3 := fsWrite fs2 packageJsonPath (writeJsonString originalPackageJson)
        let fs4 := fsWrite fs3 wireJsonPath (writeJsonString defaultConfig)
        (fs4, success)

/-- The fixed `filesToSign` list of bundle-relative paths (framework,
libraries, helper apps, login helper), with the common-config name
interpolated. -/
def filesToSign (name : String) : List String :=
  [ "Frameworks/Electron Framework.framework/Versions/A/Electron Framework",
    "Frameworks/Electron Framework.framework/Versions/A/Libraries/libEGL.dylib",
    "Frameworks/Electron Framework.framework/Versions/A/Libraries/libffmpeg.dylib",
    "Frameworks/Electron Framework.framework/Versions/A/Libraries/libGLESv2.dylib",
    "Frameworks/Electron Framework.framework/Versions/A/Libraries/libswiftshader_libEGL.dylib",
    "Frameworks/Electron Framework.framework/Versions/A/Libraries/libswiftshader_libGLESv2.dylib",
    "Frameworks/Electron Framework.framework/",
    "Frameworks/" ++ name ++ " Helper.app/Contents/MacOS/" ++ name ++ " Helper",
    "Frameworks/" ++ name ++ " Helper.app/",
    "Frameworks/" ++ name ++ " Helper (GPU).app/Contents/MacOS/" ++ name ++ " Helper (GPU)",
    "Frameworks/" ++ name ++ " Helper (GPU).app/",
    "Frameworks/" ++ name ++ " Helper (Plugin).app/Contents/MacOS/" ++ name ++ " Helper (Plugin)",
    "Frameworks/" ++ name ++ " Helper (Plugin).app/",
    "Frameworks/" ++ name ++ " Helper (Renderer).app/Contents/MacOS/" ++ name ++ " Helper (Renderer)",
    "Frameworks/" ++ name ++ " Helper (Renderer).app/",
    "Library/LoginItems/" ++ name ++ " Login Helper.app/Contents/MacOS/" ++ name ++ " Login Helper",
    "Library/LoginItems/" ++ name ++ " Login Helper.app/" ]

/-- Wrap a shell word in single quotes, as the source command templates do. -/
def shQuote (s : String) : String := "\x27" ++ s ++ "\x27"

/-- The `child.plist` inheriting entitlements path constant. -/
def inheritEntitlements : String := "resources/macos/entitlements/child.plist"

/-- The `parent.plist` main entitlements path constant. -/
def mainEntitlements : String := "resources/macos/entitlements/parent.plist"

/-- One `codesign --deep -fs ... --entitlements ...` shell invocation. -/
def codesignCmd (cert entitlements target : String) : String :=
  "codesign --deep -fs " ++ shQuote cert ++ " --entitlements " ++ shQuote entitlements ++ " " ++ shQuote target

/-- The `productbuild` shell invocation signing the installer package. -/
def productbuildCmd (appFile cert pkgFile : String) : String :=
  "productbuild --component " ++ shQuote appFile ++ " /Applications --sign " ++ shQuote cert ++ " " ++ shQuote pkgFile

/-- Model of `manualMacOSSign` as the ordered list of `execSync` shell invocations it
issues: for a truthy application certificate, one `codesign` with the
inheriting entitlements per `filesToSign` entry, then — only for a truthy
installer certificate — a `codesign` of the top-level executable with the
inheriting entitlements, a `codesign` of the app bundle with the main
entitlements, and the `productbuild` call; with a falsy application
certificate the whole body is skipped. -/
def manualMacOSSign (appFile pkgFile : String) (commonConfig : CommonConfig)
    (macOSConfig : MacOSConfig) : List String :=
  if jsTruthy macOSConfig.certNameApplication then
    let certApp := macOSConfig.certNameApplication.getD ""
    let loopCmds := (filesToSign commonConfig.name).map
      (fun fileName => codesignCmd certApp inheritEntitlements (appFile ++ "/Contents/" ++ fileName))
    let tailCmds :=
      if jsTruthy macOSConfig.certNameInstaller then
        let appExecutable := appFile ++ "/Contents/MacOS/" ++ commonConfig.name
        [ codesignCmd certApp inheritEntitlements appExecutable,
          codesignCmd certApp mainEntitlements appFile,
          productbuildCmd appFile (macOSConfig.certNameInstaller.getD "") pkgFile ]
      else []
    loopCmds ++ tailCmds
  else []

/-- Folding cons of suggestion items over a list lays the mapped list in
front of the initial template. -/
theorem foldr_suggestion (l : List String) (init : List MenuItem) :
    l.foldr (fun s t => MenuItem.suggestion s :: t) init
      = l.map MenuItem.suggestion ++ init := by
  induction l with
  | nil => rfl
  | cons x xs ih => simp [ih]

/-- The text menu built for a truthy misspelled word and a non-empty
suggestion list: the suggestions in original order, then the separator,
then the template. -/
theorem createTextMenu_eq_of_suggestions (mw : String) (l : List String)
    (hmw : mw ≠ "") (hl : l ≠ []) :
    createTextMenu { suggestions := some l, misspelledWord := some mw }
      = l.map MenuItem.suggestion ++ MenuItem.separator :: textMenuTemplate := by
  have hmw2 : (mw != "") = true := by simp [hmw]
  have hl2 : 0 < l.length := List.length_pos.mpr hl
  simp [createTextMenu, jsTruthy, hmw2, hl2, foldr_suggestion]

/-- An initial segment of a list is detected by `isPrefixChars`. -/
theorem isPrefixChars_append (p s : List Char) : isPrefixChars p (p ++ s) = true := by
  induction p with
  | nil => rfl
  | cons c cs ih => simp [isPrefixChars, ih]

/-- Stripping the `mailto:` prefix from a string that carries it yields the
remainder. -/
theorem stripMailto_mailto (s : String) : stripMailto ("mailto:" ++ s) = s := by
  have hpre : isPrefixChars "mailto:".data ("mailto:" ++ s).data = true := by
    rw [String.data_append]
    exact isPrefixChars_append _ _
  have hlen : "mailto:".data.length = 7 := rfl
  unfold stripMailto
  rw [if_pos hpre, String.data_append, ← hlen, List.drop_left]

/-- A textarea target element. -/
def textareaElem : ElementData :=
  { nodeName := "TEXTAREA", classList := [], src := "", href := "",
    innerText := "", timeElement := none }

/-- The module state at load time. -/
def stInit : MenuState :=
  { copyContext := "", imageMenuImage := none, imageMenuTimestamp := none }

/-- An image target element. -/
def imgElem : ElementData :=
  { nodeName := "IMG", classList := ["image-element"], src := "https://x/y.png",
    href := "", innerText := "", timeElement := none }

/-- A `.message-body` container with no `time` descendant. -/
def mbNoTime : ElementData :=
  { nodeName := "DIV", classList := ["message-body"], src := "", href := "",
    innerText := "", timeElement := none }

/-- A module state left behind by an earlier click (image and timestamp
captured from that click). -/
def stOld : MenuState :=
  { copyContext := "x", imageMenuImage := some "old.png", imageMenuTimestamp := some "123" }

/-- An anchor target element with a `mailto:` href. -/
def anchorElem : ElementData :=
  { nodeName := "A", classList := [], src := "", href := "mailto:a@b.com",
    innerText := "", timeElement := none }

/-- C2 counterexample: for a textarea target with misspelled word "hte" and
suggestions ["hte", "the"], the popped menu's leading items are the
suggestions in their original order ["hte", "the"], not the reversed list
["the", "hte"] the claim states: the in-place `reverse()` is cancelled by
the repeated `unshift`. -/
theorem createTextMenu_suggestions_not_reversed :
    ((handleContextMenu textareaElem .document ⟨some "hte", some ["hte", "the"]⟩ none stInit).popup
        = some (.text [MenuItem.suggestion "hte", MenuItem.suggestion "the", MenuItem.separator,
            MenuItem.roleItem "menuCut" "cut", MenuItem.roleItem "menuCopy" "copy",
            MenuItem.roleItem "menuPaste" "paste", MenuItem.separator,
            MenuItem.roleItem "menuSelectAll" "selectAll"]))
    ∧ ∀ items, (handleContextMenu textareaElem .document ⟨some "hte", some ["hte", "the"]⟩ none
        stInit).popup = some (.text items) →
        items.take 2 ≠ [MenuItem.suggestion "the", MenuItem.suggestion "hte"] := by
  refine ⟨by decide, ?_⟩
  intro items h
  have h2 : (handleContextMenu textareaElem .document ⟨some "hte", some ["hte", "the"]⟩ none
      stInit).popup = some (.text [MenuItem.suggestion "hte", MenuItem.suggestion "the",
      MenuItem.separator, MenuItem.roleItem "menuCut" "cut", MenuItem.roleItem "menuCopy" "copy",
      MenuItem.roleItem "menuPaste" "paste", MenuItem.separator,
      MenuItem.roleItem "menuSelectAll" "selectAll"]) := by decide
  rw [h] at h2
  have h3 := Option.some.inj h2
  have h4 : items = [MenuItem.suggestion "hte", MenuItem.suggestion "the", MenuItem.separator,
      MenuItem.roleItem "menuCut" "cut", MenuItem.roleItem "menuCopy" "copy",
      MenuItem.roleItem "menuPaste" "paste", MenuItem.separator,
      MenuItem.roleItem "menuSelectAll" "selectAll"] := by
    cases h3 with
    | _ => rfl
  subst h4
  decide

/-- C2 (amended): for a TEXTAREA or INPUT target with a truthy misspelled
word and a non-empty suggestion list, the popped text menu consists of one
item per suggestion in the original list order — each activating a
replacement of the misspelled word with its own label — followed by a
separator and the standard cut/copy/paste/select-all template. -/
theorem createTextMenu_suggestions_order (d : ElementData) (parent : DomNode)
    (mw : String) (l : List String) (selection : Option String) (st : MenuState)
    (hnn : d.nodeName = "TEXTAREA" ∨ d.nodeName = "INPUT") (hmw : mw ≠ "") (hl : l ≠ []) :
    (handleContextMenu d parent ⟨some mw, some l⟩ selection st).popup
      = some (.text (l.map MenuItem.suggestion ++ MenuItem.separator :: textMenuTemplate))
    ∧ ∀ s ∈ l, menuItemAction (MenuItem.suggestion s) = ClickAction.replaceMisspelling s := by
  refine ⟨?_, fun s _ => rfl⟩
  rcases hnn with h | h <;>
    simp [handleContextMenu, h, createTextMenu_eq_of_suggestions mw l hmw hl]

theorem createTextMenu_suggestions_order_witness :
    (handleContextMenu textareaElem .document ⟨some "hte", some ["hte", "the"]⟩ none stInit).popup
      = some (.text (["hte", "the"].map MenuItem.suggestion
          ++ MenuItem.separator :: textMenuTemplate))
    ∧ ∀ s ∈ ["hte", "the"], menuItemAction (MenuItem.suggestion s)
        = ClickAction.replaceMisspelling s :=
  createTextMenu_suggestions_order textareaElem .document "hte" ["hte", "the"] none stInit
    (Or.inl rfl) (by decide) (by decide)

/-- C7: for a TEXTAREA or INPUT target with a truthy misspelled word and an
empty or absent suggestion list, the popped text menu leads with the
disabled "No suggestions" placeholder, followed by a separator and the
standard template. -/
theorem createTextMenu_no_suggestions_placeholder (d : ElementData) (parent : DomNode)
    (mw : String) (suggestions : Option (List String)) (selection : Option String)
    (st : MenuState)
    (hnn : d.nodeName = "TEXTAREA" ∨ d.nodeName = "INPUT") (hmw : mw ≠ "")
    (hs : suggestions = none ∨ suggestions = some []) :
    (handleContextMenu d parent ⟨some mw, suggestions⟩ selection st).popup
      = some (.text (MenuItem.disabledItem "No suggestions"
          :: MenuItem.separator :: textMenuTemplate)) := by
  have hmw2 : (mw != "") = true := by simp [hmw]
  rcases hnn with h | h <;> rcases hs with h2 | h2 <;> subst h2 <;>
    simp [handleContextMenu, h, createTextMenu, jsTruthy, hmw2]

theorem createTextMenu_no_suggestions_placeholder_witness :
    (handleContextMenu textareaElem .document ⟨some "hte", none⟩ none stInit).popup
      = some (.text (MenuItem.disabledItem "No suggestions"
          :: MenuItem.separator :: textMenuTemplate)) :=
  createTextMenu_no_suggestions_placeholder textareaElem .document "hte" none none stInit
    (Or.inl rfl) (by decide) (Or.inl rfl)

/-- C3 counterexample: a click on an image whose `.message-body` container
has no `time` descendant pops the image menu while the `timestamp` field
still holds the value captured on a previous click — a stale value from a
previous click is observable by the popup, contradicting the claim that
both `ImageMenuState` fields are set from the current click. -/
theorem handleContextMenu_stale_timestamp :
    stOld.imageMenuTimestamp = some "123"
    ∧ (handleContextMenu imgElem (.elem mbNoTime .document) ⟨none, none⟩ none stOld).popup
        = some .image
    ∧ (handleContextMenu imgElem (.elem mbNoTime .document) ⟨none, none⟩ none
        stOld).state.imageMenuTimestamp = some "123" := by
  decide

/-- C3 (amended): for every dispatch, the shared `copyContext` is fresh:
reset at the start, and only ever overwritten — before the default copy
menu pops up — with a value captured from the current click (the anchor
href with its `mailto:` prefix stripped, the current selection, or the
current element's or `text`-class ancestor's trimmed inner text).
Before the image popup, `image` is likewise set from the current click;
`timestamp`, however, is freshly set only when the `.message-body`
container has a `time` descendant — otherwise the value captured on a
previous click persists. -/
theorem handleContextMenu_state_freshness (d : ElementData) (parent : DomNode)
    (params : ContextMenuParams) (selection : Option String) (st : MenuState) :
    ((handleContextMenu d parent params selection st).popup ≠ some Popup.defaultCopy →
        (handleContextMenu d parent params selection st).state.copyContext = "")
    ∧ ((handleContextMenu d parent params selection st).popup = some Popup.defaultCopy →
        (d.nodeName = "A"
            ∧ (handleContextMenu d parent params selection st).state.copyContext
              = stripMailto d.href)
          ∨ (d.nodeName ≠ "A" ∧ "text" ∈ d.classList
            ∧ (handleContextMenu d parent params selection st).state.copyContext
              = (if (selection.getD "") != "" then selection.getD ""
                 else d.innerText.trim))
          ∨ (∃ anc, findTextAncestor parent = some anc
            ∧ (handleContextMenu d parent params selection st).state.copyContext
              = (if (selection.getD "") != "" then selection.getD ""
                 else anc.innerText.trim)))
    ∧ ∀ mb, ("image-element" ∈ d.classList ∨ "detail-view-image" ∈ d.classList) →
        d.nodeName ≠ "TEXTAREA" → d.nodeName ≠ "INPUT" →
        closestMessageBody (.elem d parent) = some mb →
        (handleContextMenu d parent params selection st).popup = some Popup.image
        ∧ (handleContextMenu d parent params selection st).state.imageMenuImage = some d.src
        ∧ (∀ ts, mb.timeElement = some ts →
            (handleContextMenu d parent params selection st).state.imageMenuTimestamp = ts)
        ∧ (mb.timeElement = none →
            (handleContextMenu d parent params selection st).state.imageMenuTimestamp
              = st.imageMenuTimestamp) := by
  refine ⟨?_, ?_, ?_⟩
  · unfold handleContextMenu
    repeat' split <;> try simp_all
  · unfold handleContextMenu
    repeat' split <;> try simp_all
  · intro mb himg hnn1 hnn2 hmb
    rcases h : mb.timeElement with _ | ts <;>
      simp [handleContextMenu, hnn1, hnn2, himg, hmb, h]

theorem handleContextMenu_state_freshness_witness :
    (handleContextMenu imgElem (.elem mbNoTime .document) ⟨none, none⟩ none
        stOld).state.copyContext = ""
    ∧ (handleContextMenu imgElem (.elem mbNoTime .document) ⟨none, none⟩ none
        stOld).state.imageMenuImage = some imgElem.src
    ∧ (handleContextMenu anchorElem .document ⟨none, none⟩ none stOld).state.copyContext
        = stripMailto anchorElem.href := by
  refine ⟨?_, ?_, ?_⟩
  · exact (handleContextMenu_state_freshness imgElem (.elem mbNoTime .document)
      ⟨none, none⟩ none stOld).1 (by decide)
  · exact ((handleContextMenu_state_freshness imgElem (.elem mbNoTime .document)
      ⟨none, none⟩ none stOld).2.2 mbNoTime (Or.inl (by decide)) (by decide) (by decide)
      (by decide)).2.1
  · rcases (handleContextMenu_state_freshness anchorElem .document ⟨none, none⟩ none
        stOld).2.1 (by decide) with ⟨_, h⟩ | ⟨h1, _, _⟩ | ⟨anc, hanc, _⟩
    · exact h
    · exact absurd (by decide : anchorElem.nodeName = "A") h1
    · simp [findTextAncestor] at hanc

/-- C5 counterexample: a click on an image element with no `.message-body`
ancestor calls `preventDefault` and then throws before any popup — the
default action is suppressed although no custom menu is shown, refuting
the claimed equivalence. -/
theorem handleContextMenu_preventDefault_without_menu :
    (handleContextMenu imgElem .document ⟨none, none⟩ none stInit).preventedDefault = true
    ∧ (handleContextMenu imgElem .document ⟨none, none⟩ none stInit).popup = none := by
  decide

/-- C5 (amended): `preventDefault` is called exactly when the dispatch
either shows a custom menu or throws in the image case; in particular when
no case matches it neither shows a menu nor suppresses the default
action. -/
theorem handleContextMenu_preventDefault_iff (d : ElementData) (parent : DomNode)
    (params : ContextMenuParams) (selection : Option String) (st : MenuState) :
    (handleContextMenu d parent params selection st).preventedDefault = true
      ↔ ((handleContextMenu d parent params selection st).popup ≠ none
          ∨ (handleContextMenu d parent params selection st).threw = true) := by
  unfold handleContextMenu
  repeat' split <;> try simp_all

/-- C6: for an anchor target (outside the earlier textarea/input and image
cases) the captured copy text is the href with a leading `mailto:` prefix
removed and the default copy menu is shown; `mailto:`-prefixed hrefs lose
exactly the prefix and prefix-free hrefs are captured unchanged. -/
theorem handleContextMenu_anchor_copyContext (d : ElementData) (parent : DomNode)
    (params : ContextMenuParams) (selection : Option String) (st : MenuState)
    (hA : d.nodeName = "A")
    (h1 : "image-element" ∉ d.classList) (h2 : "detail-view-image" ∉ d.classList) :
    (handleContextMenu d parent params selection st).state.copyContext = stripMailto d.href
    ∧ (handleContextMenu d parent params selection st).popup = some .defaultCopy
    ∧ (∀ s, stripMailto ("mailto:" ++ s) = s)
    ∧ stripMailto "mailto:a@b.com" = "a@b.com"
    ∧ ∀ s, isPrefixChars "mailto:".data s.data = false → stripMailto s = s := by
  refine ⟨?_, ?_, stripMailto_mailto, by decide, fun s hs => by simp [stripMailto, hs]⟩ <;>
    simp [handleContextMenu, hA, h1, h2]

theorem handleContextMenu_anchor_copyContext_witness :
    (handleContextMenu anchorElem .document ⟨none, none⟩ none stInit).state.copyContext
        = stripMailto anchorElem.href
    ∧ (handleContextMenu anchorElem .document ⟨none, none⟩ none stInit).popup
        = some .defaultCopy
    ∧ (∀ s, stripMailto ("mailto:" ++ s) = s)
    ∧ stripMailto "mailto:a@b.com" = "a@b.com"
    ∧ ∀ s, isPrefixChars "mailto:".data s.data = false → stripMailto s = s :=
  handleContextMenu_anchor_copyContext anchorElem .document ⟨none, none⟩ none stInit
    (by decide) (by decide) (by decide)

/-- C10: in the image branch, when no node in the chain matches
`.message-body`, the dispatch throws (the `null` result of `closest` is
dereferenced) after `preventDefault` but before any popup or state write;
with such an ancestor present the image case does not throw and pops the
image menu. -/
theorem handleContextMenu_image_throws_without_message_body (d : ElementData)
    (parent : DomNode) (params : ContextMenuParams) (selection : Option String)
    (st : MenuState)
    (himg : "image-element" ∈ d.classList ∨ "detail-view-image" ∈ d.classList)
    (hnn1 : d.nodeName ≠ "TEXTAREA") (hnn2 : d.nodeName ≠ "INPUT") :
    (closestMessageBody (.elem d parent) = none →
        (handleContextMenu d parent params selection st).threw = true
        ∧ (handleContextMenu d parent params selection st).preventedDefault = true
        ∧ (handleContextMenu d parent params selection st).popup = none
        ∧ (handleContextMenu d parent params selection st).state.imageMenuImage
            = st.imageMenuImage
        ∧ (handleContextMenu d parent params selection st).state.imageMenuTimestamp
            = st.imageMenuTimestamp)
    ∧ (∀ mb, closestMessageBody (.elem d parent) = some mb →
        (handleContextMenu d parent params selection st).threw = false
        ∧ (handleContextMenu d parent params selection st).popup = some .image) := by
  constructor
  · intro hmb
    simp [handleContextMenu, hnn1, hnn2, himg, hmb]
  · intro mb hmb
    rcases h : mb.timeElement with _ | ts <;>
      simp [handleContextMenu, hnn1, hnn2, himg, hmb, h]

theorem handleContextMenu_image_throws_without_message_body_witness :
    ((closestMessageBody (.elem imgElem .document) = none →
        (handleContextMenu imgElem .document ⟨none, none⟩ none stInit).threw = true
        ∧ (handleContextMenu imgElem .document ⟨none, none⟩ none
            stInit).preventedDefault = true
        ∧ (handleContextMenu imgElem .document ⟨none, none⟩ none stInit).popup = none
        ∧ (handleContextMenu imgElem .document ⟨none, none⟩ none
            stInit).state.imageMenuImage = stInit.imageMenuImage
        ∧ (handleContextMenu imgElem .document ⟨none, none⟩ none
            stInit).state.imageMenuTimestamp = stInit.imageMenuTimestamp)
      ∧ (∀ mb, closestMessageBody (.elem imgElem .document) = some mb →
          (handleContextMenu imgElem .document ⟨none, none⟩ none stInit).threw = false
          ∧ (handleContextMenu imgElem .document ⟨none, none⟩ none stInit).popup
              = some .image)) :=
  handleContextMenu_image_throws_without_message_body imgElem .document ⟨none, none⟩ none
    stInit (Or.inl (by decide)) (by decide) (by decide)

/-- C8: with none of the five relevant environment variables set,
`buildMacOSConfig` returns a `macOSConfig` equal to the documented default
record exactly — default bundle id and category, both certificate names
and both notarization credentials null. -/
theorem buildMacOSConfig_defaults (commonConfig : CommonConfig) (signManually : Bool) :
    (buildMacOSConfig emptyEnv commonConfig signManually).macOSConfig = macOsDefaultConfig := rfl

/-- A fixed common config used by the concrete build scenarios. -/
def ccFix : CommonConfig :=
  { name := "Wire", version := "3.0", copyright := "copyright",
    buildNumber := "0", enableAsar := true, buildDir := "wrap",
    distDir := "dist", customProtocolName := "wire" }

/-- A macOS config with only the application certificate set. -/
def mcAppOnly : MacOSConfig :=
  { macOsDefaultConfig with certNameApplication := some "AppCert" }

/-- C9: with a null application certificate, `manualMacOSSign` issues no
shell invocation at all — even when the installer certificate is set. -/
theorem manualMacOSSign_null_application_cert (appFile pkgFile : String)
    (commonConfig : CommonConfig) (macOSConfig : MacOSConfig)
    (h : macOSConfig.certNameApplication = none) :
    manualMacOSSign appFile pkgFile commonConfig macOSConfig = [] := by
  simp [manualMacOSSign, h, jsTruthy]

theorem manualMacOSSign_null_application_cert_witness :
    manualMacOSSign "app.app" "out.pkg" ccFix
      { macOsDefaultConfig with certNameInstaller := some "InstCert" } = [] :=
  manualMacOSSign_null_application_cert "app.app" "out.pkg" ccFix
    { macOsDefaultConfig with certNameInstaller := some "InstCert" } rfl

/-- C4 counterexample: with a non-null application certificate but a null
installer certificate, `manualMacOSSign` issues only the seventeen
per-file codesign invocations — no top-level-executable codesign, no app
bundle codesign and no productbuild call follow, refuting the claimed
unconditional four-phase order. -/
theorem manualMacOSSign_no_productbuild_without_installer_cert :
    mcAppOnly.certNameApplication = some "AppCert"
    ∧ (manualMacOSSign "app.app" "out.pkg" ccFix mcAppOnly).length = 17
    ∧ ∀ cmd ∈ manualMacOSSign "app.app" "out.pkg" ccFix mcAppOnly,
        isPrefixChars "productbuild".data cmd.data = false := by
  decide

/-- C4 (amended): with truthy application and installer certificates,
`manualMacOSSign` issues exactly, in order: one codesign with the
inheriting (child) entitlements per entry of the fixed bundle-relative
path list, then a codesign of the top-level app executable (inheriting
entitlements), then a codesign of the app bundle with the parent
entitlements, then one productbuild call signing the installer package
with the installer identity. -/
theorem manualMacOSSign_order (appFile pkgFile : String) (commonConfig : CommonConfig)
    (macOSConfig : MacOSConfig) (certApp certInst : String)
    (hA : macOSConfig.certNameApplication = some certApp) (hA2 : certApp ≠ "")
    (hI : macOSConfig.certNameInstaller = some certInst) (hI2 : certInst ≠ "") :
    manualMacOSSign appFile pkgFile commonConfig macOSConfig
      = (filesToSign commonConfig.name).map
          (fun fileName =>
            codesignCmd certApp inheritEntitlements (appFile ++ "/Contents/" ++ fileName))
        ++ [ codesignCmd certApp inheritEntitlements
               (appFile ++ "/Contents/MacOS/" ++ commonConfig.name),
             codesignCmd certApp mainEntitlements appFile,
             productbuildCmd appFile certInst pkgFile ] := by
  simp [manualMacOSSign, hA, hI, jsTruthy, hA2, hI2]

theorem manualMacOSSign_order_witness :
    manualMacOSSign "app.app" "out.pkg" ccFix
        { mcAppOnly with certNameInstaller := some "InstCert" }
      = (filesToSign ccFix.name).map
          (fun fileName =>
            codesignCmd "AppCert" inheritEntitlements ("app.app" ++ "/Contents/" ++ fileName))
        ++ [ codesignCmd "AppCert" inheritEntitlements
               ("app.app" ++ "/Contents/MacOS/" ++ ccFix.name),
             codesignCmd "AppCert" mainEntitlements "app.app",
             productbuildCmd "app.app" "InstCert" "out.pkg" ] :=
  manualMacOSSign_order "app.app" "out.pkg" ccFix
    { mcAppOnly with certNameInstaller := some "InstCert" } "AppCert" "InstCert"
    rfl (by decide) rfl (by decide)

/-- The initial file system of the concrete C1 scenario: both manifests are
valid JSON but compactly formatted (not in the 2-space form `writeJson`
produces). -/
def fsC1 : FS := fun p =>
  if p = "package.json" then some "\x7b\"productName\":\"Old\",\"version\":\"0\"\x7d"
  else if p = "wire.json" then some "\x7b\"name\":\"Wire\"\x7d"
  else none

/-- C1 counterexample: a successful run of `buildMacOSWrapper` over a
compactly formatted package.json leaves the restored file value-equal but
not byte-identical to its pre-call contents: the restoring `writeJson`
re-serializes with 2-space indentation and a trailing newline. -/
theorem buildMacOSWrapper_not_byte_identical :
    (buildMacOSWrapper (fun _ => ccFix) false false macOsDefaultConfig
        "package.json" "wire.json" fsC1).2 = true
    ∧ (buildMacOSWrapper (fun _ => ccFix) false false macOsDefaultConfig
        "package.json" "wire.json" fsC1).1 "package.json"
      = some "\x7b\n  \"productName\": \"Old\",\n  \"version\": \"0\"\n\x7d\n"
    ∧ (buildMacOSWrapper (fun _ => ccFix) false false macOsDefaultConfig
        "package.json" "wire.json" fsC1).1 "package.json" ≠ fsC1 "package.json" := by
  decide

/-- C1 (amended): after any execution of `buildMacOSWrapper` — packager and
signing succeeding or throwing alike — each of the two manifest files holds
the canonical 2-space re-serialization of its pre-call JSON content: the
same JSON value as before the call, and byte-identical to the pre-call
bytes exactly when the file was already in that canonical form. -/
theorem buildMacOSWrapper_restores_canonical
    (envMerge : JValue → CommonConfig) (packagerThrows signThrows : Bool)
    (macOSConfig : MacOSConfig) (packageJsonPath wireJsonPath : String) (fs0 : FS)
    (wireContent pkgContent : String) (defaultConfig originalPackageJson : JValue)
    (hne : packageJsonPath ≠ wireJsonPath)
    (hw : fs0 wireJsonPath = some wireContent)
    (hwp : parseJson wireContent = some defaultConfig)
    (hp : fs0 packageJsonPath = some pkgContent)
    (hpp : parseJson pkgContent = some originalPackageJson) :
    (buildMacOSWrapper envMerge packagerThrows signThrows macOSConfig
        packageJsonPath wireJsonPath fs0).1 packageJsonPath
      = some (writeJsonString originalPackageJson)
    ∧ (buildMacOSWrapper envMerge packagerThrows signThrows macOSConfig
        packageJsonPath wireJsonPath fs0).1 wireJsonPath
      = some (writeJsonString defaultConfig) := by
  simp [buildMacOSWrapper, getCommonConfig, hw, hwp, hp, hpp, fsWrite, hne]

theorem buildMacOSWrapper_restores_canonical_witness :
    (buildMacOSWrapper (fun _ => ccFix) true false macOsDefaultConfig
        "package.json" "wire.json" fsC1).1 "package.json"
      = some (writeJsonString (.obj (.cons "productName" (.str "Old")
          (.cons "version" (.str "0") .nil))))
    ∧ (buildMacOSWrapper (fun _ => ccFix) true false macOsDefaultConfig
        "package.json" "wire.json" fsC1).1 "wire.json"
      = some (writeJsonString (.obj (.cons "name" (.str "Wire") .nil))) :=
  buildMacOSWrapper_restores_canonical (fun _ => ccFix) true false macOsDefaultConfig
    "package.json" "wire.json" fsC1
    "\x7b\"name\":\"Wire\"\x7d" "\x7b\"productName\":\"Old\",\"version\":\"0\"\x7d"
    (.obj (.cons "name" (.str "Wire") .nil))
    (.obj (.cons "productName" (.str "Old") (.cons "version" (.str "0") .nil)))
    (by decide) rfl rfl rfl rfl
